import Mathlib

/-!
Verification of the normalized-coordinate geometry engine and interaction
state machine of the document-extraction viewer (src/index.tsx).

The embedding uses exact rationals (`ℚ`) for the numeric geometry; all
geometry theorems carry the positivity hypotheses under which every division
in the source is a division by a nonzero number, so the rational model agrees
with the JavaScript floating-point evaluation up to rounding.  A second,
separate model (`JSNum`) captures JavaScript's special values (`NaN`,
`Infinity`) exactly, and is used to analyse the behaviour of
`getCoordinateSystem` on zero-sized dimensions, where those special values
matter.
-/

namespace DocExtract

/-- A normalized box `{left, top, right, bottom}`, page-fraction units,
origin at the page's top-left (src/index.tsx bounding_box / line_boxes). -/
structure NormalizedBox where
  left : ℚ
  top : ℚ
  right : ℚ
  bottom : ℚ
deriving DecidableEq

/-- A pixel rectangle `{left, top, width, height}` as used for overlay
placement (`style.left/top/width/height`, `offsetLeft/Top/Width/Height`). -/
structure PixelRect where
  left : ℚ
  top : ℚ
  width : ℚ
  height : ℚ
deriving DecidableEq

/-- One entry of the `pageDimensions` array: the intrinsic (unscaled)
content dimensions of a page (src/index.tsx line 49). -/
structure PageDim where
  width : ℚ
  height : ℚ
deriving DecidableEq

/-- The `coords` sub-object of the coordinate system (scale and
letterbox/pillarbox offsets), src/index.tsx lines 1182-1194. -/
structure Coords where
  scale : ℚ
  offsetX : ℚ
  offsetY : ℚ
deriving DecidableEq

/-- The object returned by `getCoordinateSystem` (src/index.tsx lines
1202-1208). -/
structure CoordinateSystem where
  page : PageDim
  display : PageDim
  coords : Coords
  relativeTop : ℚ
  relativeLeft : ℚ
deriving DecidableEq

/-- A DOM layout rectangle as returned by `getBoundingClientRect`
(only the fields the source reads). -/
structure DOMRect where
  left : ℚ
  top : ℚ
  width : ℚ
  height : ℚ
deriving DecidableEq

/-- `getCoordinateSystem(previewElement, pageNum)` (src/index.tsx lines
1168-1209), over exact rationals.  The live DOM inputs — the preview
element's bounding client rect, the scroll container's bounding client rect
and its scroll offsets — are passed explicitly.  Returns `none` exactly when
`pageDimensions[pageNum - 1]` is missing, as the source does; the source has
no guard on zero-sized dimensions (see `getCoordinateSystemJS` for the
floating-point special-value behaviour in that case). -/
def getCoordinateSystem (pageDimensions : List PageDim)
    (elementRect containerRect : DOMRect) (scrollTop scrollLeft : ℚ)
    (pageNum : ℕ) : Option CoordinateSystem :=
  match pageDimensions.get? (pageNum - 1) with
  | none => none
  | some pageDim =>
    let displayWidth := elementRect.width
    let displayHeight := elementRect.height
    let contentWidth := pageDim.width
    let contentHeight := pageDim.height
    let displayAspectRatio := displayWidth / displayHeight
    let contentAspectRatio := contentWidth / contentHeight
    -- `displayAspectRatio > contentAspectRatio` in the source
    let scaleOffsets : Coords :=
      if contentAspectRatio < displayAspectRatio then
        let scale := displayHeight / contentHeight
        ⟨scale, (displayWidth - contentWidth * scale) / 2, 0⟩
      else
        let scale := displayWidth / contentWidth
        ⟨scale, 0, (displayHeight - contentHeight * scale) / 2⟩
    let relativeTop := elementRect.top - containerRect.top + scrollTop
    let relativeLeft := elementRect.left - containerRect.left + scrollLeft
    some { page := ⟨contentWidth, contentHeight⟩
           display := ⟨displayWidth, displayHeight⟩
           coords := scaleOffsets
           relativeTop := relativeTop
           relativeLeft := relativeLeft }

/-- The `{page, pixels}` object returned by `normalizedToPixels`. -/
structure ProjectedBox where
  page : PageDim
  pixels : PixelRect
deriving DecidableEq

/-- `normalizedToPixels(box, pageNum, coordSystem)` (src/index.tsx lines
1214-1235).  The `pageNum` parameter is unused in the source body and kept
for signature fidelity. -/
def normalizedToPixels (box : NormalizedBox) (_pageNum : ℕ)
    (coordSystem : CoordinateSystem) : ProjectedBox :=
  let contentWidth := coordSystem.page.width
  let contentHeight := coordSystem.page.height
  let scale := coordSystem.coords.scale
  let offsetX := coordSystem.coords.offsetX
  let offsetY := coordSystem.coords.offsetY
  { page := ⟨contentWidth, contentHeight⟩
    pixels :=
      { left := coordSystem.relativeLeft + box.left * contentWidth * scale + offsetX
        top := coordSystem.relativeTop + box.top * contentHeight * scale + offsetY
        width := (box.right - box.left) * contentWidth * scale
        height := (box.bottom - box.top) * contentHeight * scale } }

/-- The arithmetic of `pixelsToNormalized` (src/index.tsx lines 1246-1264)
applied to an explicitly given coordinate system.  The source function
re-resolves the coordinate system from the live DOM; this core is that
function's body after the resolution step. -/
def pixelsToNormalizedCore (pixelBounds : PixelRect)
    (cs : CoordinateSystem) : NormalizedBox :=
  let contentWidth := cs.page.width
  let contentHeight := cs.page.height
  let scale := cs.coords.scale
  let offsetX := cs.coords.offsetX
  let offsetY := cs.coords.offsetY
  let absoluteLeft := pixelBounds.left - cs.relativeLeft
  let absoluteTop := pixelBounds.top - cs.relativeTop
  { left := (absoluteLeft - offsetX) / (contentWidth * scale)
    top := (absoluteTop - offsetY) / (contentHeight * scale)
    right := (absoluteLeft + pixelBounds.width - offsetX) / (contentWidth * scale)
    bottom := (absoluteTop + pixelBounds.height - offsetY) / (contentHeight * scale) }

/-- `pixelsToNormalized(pixelBounds, pageNum)` (src/index.tsx lines
1240-1265): resolves a fresh coordinate system for the page (modelled by the
`resolve` argument, standing for the `document.querySelector` +
`getCoordinateSystem` pair) and applies the conversion arithmetic; `none`
when the page's preview element or page record is missing. -/
def pixelsToNormalized (resolve : ℕ → Option CoordinateSystem)
    (pixelBounds : PixelRect) (pageNum : ℕ) : Option NormalizedBox :=
  (resolve pageNum).map (pixelsToNormalizedCore pixelBounds)

/-- Forward projection followed by the inverse arithmetic on the same
coordinate system is the identity, exactly, whenever the denominators are
nonzero. -/
theorem pixelsToNormalizedCore_normalizedToPixels
    (cs : CoordinateSystem) (box : NormalizedBox) (pageNum : ℕ)
    (hW : cs.page.width * cs.coords.scale ≠ 0)
    (hH : cs.page.height * cs.coords.scale ≠ 0) :
    pixelsToNormalizedCore (normalizedToPixels box pageNum cs).pixels cs = box := by
  cases box with
  | mk l t r b =>
    simp only [pixelsToNormalizedCore, normalizedToPixels, NormalizedBox.mk.injEq]
    refine ⟨?_, ?_, ?_, ?_⟩ <;> (field_simp; ring)

/-- C1: round-trip.  For every coordinate system with positive scale (and
well-formed positive page dimensions, as produced from a rendered page) and
every normalized box with `0 ≤ left ≤ right ≤ 1`, `0 ≤ top ≤ bottom ≤ 1`,
converting with `normalizedToPixels` and then applying the inverse
arithmetic of `pixelsToNormalized` with the same coordinate system yields
the original box, each component within `1e-6` (in the exact-rational model
the round trip is exact). -/
theorem C1_round_trip (cs : CoordinateSystem) (box : NormalizedBox) (pageNum : ℕ)
    (hscale : 0 < cs.coords.scale)
    (hW : 0 < cs.page.width) (hH : 0 < cs.page.height)
    (hl0 : 0 ≤ box.left) (hlr : box.left ≤ box.right) (hr1 : box.right ≤ 1)
    (ht0 : 0 ≤ box.top) (htb : box.top ≤ box.bottom) (hb1 : box.bottom ≤ 1) :
    |(pixelsToNormalizedCore (normalizedToPixels box pageNum cs).pixels cs).left - box.left| ≤ 1 / 1000000 ∧
    |(pixelsToNormalizedCore (normalizedToPixels box pageNum cs).pixels cs).top - box.top| ≤ 1 / 1000000 ∧
    |(pixelsToNormalizedCore (normalizedToPixels box pageNum cs).pixels cs).right - box.right| ≤ 1 / 1000000 ∧
    |(pixelsToNormalizedCore (normalizedToPixels box pageNum cs).pixels cs).bottom - box.bottom| ≤ 1 / 1000000 := by
  have h := pixelsToNormalizedCore_normalizedToPixels cs box pageNum
    (by positivity) (by positivity)
  rw [h]
  norm_num

/-- A concrete coordinate system used as witness input: a 612×792 page shown
in an 800×600 viewport (pillarboxed, scale 600/792). -/
def sampleCS : CoordinateSystem :=
  { page := ⟨612, 792⟩
    display := ⟨800, 600⟩
    coords := ⟨600 / 792, (800 - 612 * (600 / 792)) / 2, 0⟩
    relativeTop := 10
    relativeLeft := 20 }

/-- A concrete normalized box used as witness input. -/
def sampleBox : NormalizedBox := ⟨0, 0, 1, 1⟩

/-- Witness for C1 at a concrete coordinate system and box. -/
theorem C1_round_trip_witness :
    |(pixelsToNormalizedCore (normalizedToPixels sampleBox 1 sampleCS).pixels sampleCS).left - sampleBox.left| ≤ 1 / 1000000 ∧
    |(pixelsToNormalizedCore (normalizedToPixels sampleBox 1 sampleCS).pixels sampleCS).top - sampleBox.top| ≤ 1 / 1000000 ∧
    |(pixelsToNormalizedCore (normalizedToPixels sampleBox 1 sampleCS).pixels sampleCS).right - sampleBox.right| ≤ 1 / 1000000 ∧
    |(pixelsToNormalizedCore (normalizedToPixels sampleBox 1 sampleCS).pixels sampleCS).bottom - sampleBox.bottom| ≤ 1 / 1000000 :=
  C1_round_trip sampleCS sampleBox 1 (by simp [sampleCS]) (by simp [sampleCS])
    (by simp [sampleCS]) (by simp [sampleBox]) (by simp [sampleBox])
    (by simp [sampleBox]) (by simp [sampleBox]) (by simp [sampleBox])
    (by simp [sampleBox])

/-- C2: letterbox/pillarbox arithmetic of `getCoordinateSystem`.  For every
page record and display surface with positive dimensions, the branch on
`displayAspect > contentAspect` selects `scale = surfaceHeight /
contentHeight`, `offsetX = (surfaceWidth - contentWidth * scale) / 2`,
`offsetY = 0`, and otherwise `scale = surfaceWidth / contentWidth`,
`offsetY = (surfaceHeight - contentHeight * scale) / 2`, `offsetX = 0`.
In particular, content aspect `2.0` against display aspect `1.0` gives
`offsetX = 0` and `offsetY > 0`, and the reversed aspects give
`offsetY = 0` and `offsetX > 0`. -/
theorem C2_letterbox_pillarbox (pageDim : PageDim) (er cr : DOMRect)
    (st sl : ℚ)
    (hW : 0 < pageDim.width) (hH : 0 < pageDim.height)
    (hdW : 0 < er.width) (hdH : 0 < er.height) :
    (∃ cs, getCoordinateSystem [pageDim] er cr st sl 1 = some cs ∧
      (pageDim.width / pageDim.height < er.width / er.height →
        cs.coords.scale = er.height / pageDim.height ∧
        cs.coords.offsetX = (er.width - pageDim.width * cs.coords.scale) / 2 ∧
        cs.coords.offsetY = 0) ∧
      (¬ pageDim.width / pageDim.height < er.width / er.height →
        cs.coords.scale = er.width / pageDim.width ∧
        cs.coords.offsetY = (er.height - pageDim.height * cs.coords.scale) / 2 ∧
        cs.coords.offsetX = 0)) ∧
    (∀ cs, getCoordinateSystem [⟨2, 1⟩] ⟨0, 0, 1, 1⟩ cr st sl 1 = some cs →
      cs.coords.offsetX = 0 ∧ 0 < cs.coords.offsetY) ∧
    (∀ cs, getCoordinateSystem [⟨1, 1⟩] ⟨0, 0, 2, 1⟩ cr st sl 1 = some cs →
      cs.coords.offsetY = 0 ∧ 0 < cs.coords.offsetX) := by
  refine ⟨?_, ?_, ?_⟩
  · simp only [getCoordinateSystem, List.get?]
    by_cases h : pageDim.width / pageDim.height < er.width / er.height
    · exact ⟨_, rfl, by simp [h], by simp [h]⟩
    · exact ⟨_, rfl, by simp [h], by simp [h]⟩
  · intro cs hcs
    simp only [getCoordinateSystem, List.get?] at hcs
    norm_num at hcs
    rw [← hcs]
    norm_num
  · intro cs hcs
    simp only [getCoordinateSystem, List.get?] at hcs
    norm_num at hcs
    rw [← hcs]
    norm_num

/-- Witness for C2 at a concrete page record and surface. -/
theorem C2_letterbox_pillarbox_witness :
    (∃ cs, getCoordinateSystem [⟨612, 792⟩] ⟨0, 0, 800, 600⟩ ⟨0, 0, 800, 600⟩ 0 0 1 = some cs ∧
      ((612 : ℚ) / 792 < (800 : ℚ) / 600 →
        cs.coords.scale = (600 : ℚ) / 792 ∧
        cs.coords.offsetX = ((800 : ℚ) - 612 * cs.coords.scale) / 2 ∧
        cs.coords.offsetY = 0) ∧
      (¬ (612 : ℚ) / 792 < (800 : ℚ) / 600 →
        cs.coords.scale = (800 : ℚ) / 612 ∧
        cs.coords.offsetY = ((600 : ℚ) - 792 * cs.coords.scale) / 2 ∧
        cs.coords.offsetX = 0)) ∧
    (∀ cs, getCoordinateSystem [⟨2, 1⟩] ⟨0, 0, 1, 1⟩ ⟨0, 0, 800, 600⟩ 0 0 1 = some cs →
      cs.coords.offsetX = 0 ∧ 0 < cs.coords.offsetY) ∧
    (∀ cs, getCoordinateSystem [⟨1, 1⟩] ⟨0, 0, 2, 1⟩ ⟨0, 0, 800, 600⟩ 0 0 1 = some cs →
      cs.coords.offsetY = 0 ∧ 0 < cs.coords.offsetX) :=
  C2_letterbox_pillarbox ⟨612, 792⟩ ⟨0, 0, 800, 600⟩ ⟨0, 0, 800, 600⟩ 0 0
    (by simp) (by simp) (by simp) (by simp)

/-- C9: invariants of a resolved coordinate system.  Whenever the page
record and the display surface have strictly positive dimensions, the
coordinate system computed by `getCoordinateSystem` has a strictly positive
scale, nonnegative letterbox/pillarbox offsets, and at least one of the two
offsets equal to zero. -/
theorem C9_coordinate_system_invariants (dims : List PageDim)
    (er cr : DOMRect) (st sl : ℚ) (n : ℕ) (pd : PageDim)
    (hpd : dims.get? (n - 1) = some pd)
    (hW : 0 < pd.width) (hH : 0 < pd.height)
    (hdW : 0 < er.width) (hdH : 0 < er.height) :
    ∀ cs, getCoordinateSystem dims er cr st sl n = some cs →
      0 < cs.coords.scale ∧ 0 ≤ cs.coords.offsetX ∧ 0 ≤ cs.coords.offsetY ∧
      (cs.coords.offsetX = 0 ∨ cs.coords.offsetY = 0) := by
  intro cs hcs
  simp only [getCoordinateSystem, hpd] at hcs
  by_cases h : pd.width / pd.height < er.width / er.height
  · rw [if_pos h] at hcs
    rw [div_lt_div_iff hH hdH] at h
    obtain rfl := Option.some.inj hcs
    refine ⟨div_pos hdH hH, ?_, le_refl 0, Or.inr rfl⟩
    have hle : pd.width * (er.height / pd.height) ≤ er.width := by
      rw [mul_div_assoc', div_le_iff hH]
      nlinarith
    simp only
    linarith
  · rw [if_neg h] at hcs
    rw [not_lt, div_le_div_iff hdH hH] at h
    obtain rfl := Option.some.inj hcs
    refine ⟨div_pos hdW hW, le_refl 0, ?_, Or.inl rfl⟩
    have hle : pd.height * (er.width / pd.width) ≤ er.height := by
      rw [mul_div_assoc', div_le_iff hW]
      nlinarith
    simp only
    linarith

/-- The coordinate system resolved for a square 1×1 page shown on a 2×1
surface (for the C9 witness). -/
def csW : CoordinateSystem :=
  (getCoordinateSystem [⟨1, 1⟩] ⟨0, 0, 2, 1⟩ ⟨0, 0, 2, 1⟩ 0 0 1).getD
    ⟨⟨1, 1⟩, ⟨1, 1⟩, ⟨1, 0, 0⟩, 0, 0⟩

/-- Witness for C9 at a concrete page record and surface. -/
theorem C9_coordinate_system_invariants_witness :
    0 < csW.coords.scale ∧ 0 ≤ csW.coords.offsetX ∧ 0 ≤ csW.coords.offsetY ∧
      (csW.coords.offsetX = 0 ∨ csW.coords.offsetY = 0) :=
  C9_coordinate_system_invariants [⟨1, 1⟩] ⟨0, 0, 2, 1⟩ ⟨0, 0, 2, 1⟩
    0 0 1 ⟨1, 1⟩ rfl (by simp) (by simp) (by simp) (by simp) csW
    (by simp [csW, getCoordinateSystem])

/-! ### JavaScript number model for the zero-dimension analysis

The rational model above is faithful only where no division by zero occurs.
`getCoordinateSystem` in the source has no guard against zero-sized content
or display dimensions, and in JavaScript those produce `Infinity`/`NaN`.
`JSNum` models a JavaScript number as either a special value or an exact
value, with the IEEE-754 special-value propagation rules for the operations
the function uses (finite arithmetic is kept exact; negative zero is not
distinguished, which is irrelevant here since all inputs are nonnegative).
-/

/-- A JavaScript number: `NaN`, `±Infinity`, or a finite value. -/
inductive JSNum where
  | nan : JSNum
  | posInf : JSNum
  | negInf : JSNum
  | num : ℚ → JSNum
deriving DecidableEq

namespace JSNum

/-- JavaScript `<` (false on any `NaN` operand). -/
def lt : JSNum → JSNum → Bool
  | nan, _ => false
  | _, nan => false
  | num a, num b => decide (a < b)
  | negInf, negInf => false
  | negInf, _ => true
  | _, negInf => false
  | posInf, _ => false
  | num _, posInf => true

/-- JavaScript addition. -/
def add : JSNum → JSNum → JSNum
  | nan, _ => nan
  | _, nan => nan
  | num a, num b => num (a + b)
  | posInf, negInf => nan
  | negInf, posInf => nan
  | posInf, _ => posInf
  | negInf, _ => negInf
  | num _, posInf => posInf
  | num _, negInf => negInf

/-- JavaScript subtraction. -/
def sub : JSNum → JSNum → JSNum
  | nan, _ => nan
  | _, nan => nan
  | num a, num b => num (a - b)
  | posInf, posInf => nan
  | negInf, negInf => nan
  | posInf, _ => posInf
  | negInf, _ => negInf
  | num _, posInf => negInf
  | num _, negInf => posInf

/-- JavaScript multiplication (`0 * Infinity = NaN`). -/
def mul : JSNum → JSNum → JSNum
  | nan, _ => nan
  | _, nan => nan
  | num a, num b => num (a * b)
  | posInf, posInf => posInf
  | posInf, negInf => negInf
  | negInf, posInf => negInf
  | negInf, negInf => posInf
  | posInf, num b => if b = 0 then nan else if 0 < b then posInf else negInf
  | num a, posInf => if a = 0 then nan else if 0 < a then posInf else negInf
  | negInf, num b => if b = 0 then nan else if 0 < b then negInf else posInf
  | num a, negInf => if a = 0 then nan else if 0 < a then negInf else posInf

/-- JavaScript division (`0/0 = NaN`, `x/0 = ±Infinity` for `x ≠ 0`,
`Infinity/Infinity = NaN`, finite over infinite is `0`). -/
def div : JSNum → JSNum → JSNum
  | nan, _ => nan
  | _, nan => nan
  | num a, num b =>
      if b = 0 then (if a = 0 then nan else if 0 < a then posInf else negInf)
      else num (a / b)
  | posInf, posInf => nan
  | posInf, negInf => nan
  | negInf, posInf => nan
  | negInf, negInf => nan
  | posInf, num b => if 0 ≤ b then posInf else negInf
  | negInf, num b => if 0 ≤ b then negInf else posInf
  | num _, posInf => num 0
  | num _, negInf => num 0

end JSNum

/-- The `coords` sub-object of the coordinate system in the JavaScript
number model. -/
structure CoordsJS where
  scale : JSNum
  offsetX : JSNum
  offsetY : JSNum
deriving DecidableEq

/-- The object returned by `getCoordinateSystem`, JavaScript number model. -/
structure CoordinateSystemJS where
  pageWidth : JSNum
  pageHeight : JSNum
  displayWidth : JSNum
  displayHeight : JSNum
  coords : CoordsJS
  relativeTop : JSNum
  relativeLeft : JSNum
deriving DecidableEq

/-- A DOM layout rectangle in the JavaScript number model. -/
structure DOMRectJS where
  left : JSNum
  top : JSNum
  width : JSNum
  height : JSNum
deriving DecidableEq

/-- `getCoordinateSystem` (src/index.tsx lines 1168-1209) in the JavaScript
number model: identical structure to `getCoordinateSystem`, with IEEE-754
special-value propagation.  The only `none` case is a missing page record;
zero-sized dimensions flow through the arithmetic unimpeded. -/
def getCoordinateSystemJS (pageDimensions : List (JSNum × JSNum))
    (elementRect containerRect : DOMRectJS) (scrollTop scrollLeft : JSNum)
    (pageNum : ℕ) : Option CoordinateSystemJS :=
  match pageDimensions.get? (pageNum - 1) with
  | none => none
  | some pageDim =>
    let displayWidth := elementRect.width
    let displayHeight := elementRect.height
    let contentWidth := pageDim.1
    let contentHeight := pageDim.2
    let displayAspectRatio := JSNum.div displayWidth displayHeight
    let contentAspectRatio := JSNum.div contentWidth contentHeight
    -- `displayAspectRatio > contentAspectRatio` in the source
    let scaleOffsets : CoordsJS :=
      if JSNum.lt contentAspectRatio displayAspectRatio then
        let scale := JSNum.div displayHeight contentHeight
        ⟨scale, JSNum.div (JSNum.sub displayWidth (JSNum.mul contentWidth scale)) (JSNum.num 2), JSNum.num 0⟩
      else
        let scale := JSNum.div displayWidth contentWidth
        ⟨scale, JSNum.num 0, JSNum.div (JSNum.sub displayHeight (JSNum.mul contentHeight scale)) (JSNum.num 2)⟩
    let relativeTop := JSNum.add (JSNum.sub elementRect.top containerRect.top) scrollTop
    let relativeLeft := JSNum.add (JSNum.sub elementRect.left containerRect.left) scrollLeft
    some { pageWidth := contentWidth
           pageHeight := contentHeight
           displayWidth := displayWidth
           displayHeight := displayHeight
           coords := scaleOffsets
           relativeTop := relativeTop
           relativeLeft := relativeLeft }

/-- C4 (code bug evidence): on a zero-sized page record (content width and
height both `0`) and an ordinary 100×100 display surface,
`getCoordinateSystemJS` does not return `none`: it returns a coordinate
system whose scale is `Infinity` and whose `offsetY` is `NaN`.  The source
has no zero-dimension guard, contradicting the spec's divide-by-zero
requirement. -/
theorem C4_no_zero_dimension_guard :
    getCoordinateSystemJS [(JSNum.num 0, JSNum.num 0)]
        ⟨JSNum.num 0, JSNum.num 0, JSNum.num 100, JSNum.num 100⟩
        ⟨JSNum.num 0, JSNum.num 0, JSNum.num 600, JSNum.num 800⟩
        (JSNum.num 0) (JSNum.num 0) 1 ≠ none ∧
    (getCoordinateSystemJS [(JSNum.num 0, JSNum.num 0)]
        ⟨JSNum.num 0, JSNum.num 0, JSNum.num 100, JSNum.num 100⟩
        ⟨JSNum.num 0, JSNum.num 0, JSNum.num 600, JSNum.num 800⟩
        (JSNum.num 0) (JSNum.num 0) 1).map
      (fun cs => (cs.coords.scale, cs.coords.offsetX, cs.coords.offsetY)) =
      some (JSNum.posInf, JSNum.num 0, JSNum.nan) := by
  constructor
  · intro h
    simp [getCoordinateSystemJS] at h
  · rfl

/-! ### Extracted elements and hit testing -/

/-- An extracted element (the attributes the geometry/interaction core
reads; variant payloads such as `fields`/`table_data` do not participate in
geometry).  `page := 0` models a missing/falsy `page`; the extraction schema
produces pages `≥ 1`.  Entries of `line_boxes` may be `none`, mirroring the
`box &&` null guards in the source. -/
structure Element where
  type : String
  label : String
  value : String
  page : ℕ
  bounding_box : Option NormalizedBox
  line_boxes : Option (List (Option NormalizedBox))
deriving DecidableEq

/-- The box-selection rule shared by `drawBoundingBox` (src/index.tsx lines
764-769) and `handlePreviewMouseMove` (lines 926-931):
`element.line_boxes && element.line_boxes.length > 0 ? element.line_boxes
: element.bounding_box ? [element.bounding_box] : []`. -/
def boxesToCheck (element : Element) : List (Option NormalizedBox) :=
  match element.line_boxes with
  | some lbs =>
    if 0 < lbs.length then lbs
    else match element.bounding_box with
         | some bb => [some bb]
         | none => []
  | none =>
    match element.bounding_box with
    | some bb => [some bb]
    | none => []

/-- The inclusive containment test of the hit-test inner loop
(src/index.tsx lines 933-944): `left ≤ x ≤ right` and `top ≤ y ≤ bottom`. -/
def boxContains (box : NormalizedBox) (x y : ℚ) : Bool :=
  decide (box.left ≤ x) && decide (x ≤ box.right) &&
  decide (box.top ≤ y) && decide (y ≤ box.bottom)

/-- Whether some (non-null) box of the element contains the pointer. -/
def elementHit (element : Element) (x y : ℚ) : Bool :=
  (boxesToCheck element).any fun ob =>
    match ob with
    | some box => boxContains box x y
    | none => false

/-- The backward scan of `handlePreviewMouseMove` (src/index.tsx lines
920-946): `hitTestLoop el p x y n` checks indices `n-1, n-2, ..., 0` and
returns the first index whose element is on page `p` and has a box
containing the pointer, else `-1`. -/
def hitTestLoop (extractedData : List Element) (pageNum : ℕ) (x y : ℚ) :
    ℕ → Int
  | 0 => -1
  | n + 1 =>
    match extractedData.get? n with
    | some element =>
      if element.page = pageNum ∧ elementHit element x y = true then Int.ofNat n
      else hitTestLoop extractedData pageNum x y n
    | none => hitTestLoop extractedData pageNum x y n

/-- The hit test: the loop `for (let i = extractedData.length - 1; i >= 0;
i--)` of `handlePreviewMouseMove`, as a function of the pointer's
normalized coordinates. -/
def hitTest (extractedData : List Element) (pageNum : ℕ) (x y : ℚ) : Int :=
  hitTestLoop extractedData pageNum x y extractedData.length

/-- Whether element `i` of the list matches the hit test's criterion. -/
def hitMatch (extractedData : List Element) (pageNum : ℕ) (x y : ℚ)
    (i : ℕ) : Prop :=
  ∃ e, extractedData.get? i = some e ∧ e.page = pageNum ∧ elementHit e x y = true

instance (el : List Element) (p : ℕ) (x y : ℚ) (i : ℕ) :
    Decidable (hitMatch el p x y i) := by
  unfold hitMatch
  infer_instance

/-- Characterization of the backward scan: either no index below `n`
matches and the result is `-1`, or the result is the greatest matching
index below `n`. -/
theorem hitTestLoop_spec (el : List Element) (p : ℕ) (x y : ℚ) :
    ∀ n : ℕ,
      (hitTestLoop el p x y n = -1 ∧ ∀ i, i < n → ¬ hitMatch el p x y i) ∨
      (∃ i, i < n ∧ hitMatch el p x y i ∧ hitTestLoop el p x y n = Int.ofNat i ∧
        ∀ j, i < j → j < n → ¬ hitMatch el p x y j) := by
  intro n
  induction n with
  | zero => exact Or.inl ⟨rfl, by omega⟩
  | succ n ih =>
    rcases hn : el.get? n with _ | e
    all_goals have hn' : el[n]? = el.get? n := (List.get?_eq_getElem? el n).symm
    all_goals rw [hn] at hn'
    · rcases ih with ⟨h1, h2⟩ | ⟨i, hi, hm, hres, hmax⟩
      · refine Or.inl ⟨by simp [hitTestLoop, hn', h1], ?_⟩
        intro i hi hm
        rcases Nat.lt_succ_iff_lt_or_eq.mp hi with h | rfl
        · exact h2 i h hm
        · obtain ⟨e, he, _⟩ := hm
          rw [hn] at he
          exact Option.noConfusion he
      · refine Or.inr ⟨i, Nat.lt_succ_of_lt hi, hm, by simp [hitTestLoop, hn', hres], ?_⟩
        intro j hij hj hmj
        rcases Nat.lt_succ_iff_lt_or_eq.mp hj with h | rfl
        · exact hmax j hij h hmj
        · obtain ⟨e, he, _⟩ := hmj
          rw [hn] at he
          exact Option.noConfusion he
    · by_cases hcond : e.page = p ∧ elementHit e x y = true
      · refine Or.inr ⟨n, Nat.lt_succ_self n, ⟨e, hn, hcond⟩,
          by simp [hitTestLoop, hn', hcond], ?_⟩
        intro j hij hj _
        omega
      · have hstep : hitTestLoop el p x y (n + 1) = hitTestLoop el p x y n := by
          simp [hitTestLoop, hn', hcond]
        have hnotn : ¬ hitMatch el p x y n := by
          rintro ⟨e2, he2, hp2⟩
          rw [hn] at he2
          obtain rfl := Option.some.inj he2
          exact hcond hp2
        rcases ih with ⟨h1, h2⟩ | ⟨i, hi, hm, hres, hmax⟩
        · refine Or.inl ⟨by rw [hstep, h1], ?_⟩
          intro i hi hm
          rcases Nat.lt_succ_iff_lt_or_eq.mp hi with h | rfl
          · exact h2 i h hm
          · exact hnotn hm
        · refine Or.inr ⟨i, Nat.lt_succ_of_lt hi, hm, by rw [hstep, hres], ?_⟩
          intro j hij hj hmj
          rcases Nat.lt_succ_iff_lt_or_eq.mp hj with h | rfl
          · exact hmax j hij h hmj
          · exact hnotn hmj

/-- If the hit test returns a nonnegative index, that index matches. -/
theorem hitTest_pos_match (el : List Element) (p : ℕ) (x y : ℚ) (i : ℕ)
    (h : hitTest el p x y = Int.ofNat i) : hitMatch el p x y i := by
  rcases hitTestLoop_spec el p x y el.length with ⟨h1, _⟩ | ⟨j, hj, hm, hres, _⟩
  · rw [hitTest, h1] at h
    exact absurd h (by simp)
  · rw [hitTest, hres] at h
    obtain rfl : j = i := by
      simpa using h
    exact hm

/-- C3: the hit test returns the topmost match.  If no element on the page
contains the pointer, the result is `-1`; if index `i` matches and no later
index matches, the result is `i` (the backward scan returns the first match,
i.e. the greatest matching list index); in particular, for two overlapping
elements `[A, B]` on the same page, a point inside both resolves to `B`'s
index `1`. -/
theorem C3_hit_test_topmost (el : List Element) (p : ℕ) (x y : ℚ) :
    ((∀ i, ¬ hitMatch el p x y i) → hitTest el p x y = -1) ∧
    (∀ i, hitMatch el p x y i → (∀ j, i < j → ¬ hitMatch el p x y j) →
      hitTest el p x y = Int.ofNat i) ∧
    (∀ A B, A.page = p → B.page = p → elementHit A x y = true →
      elementHit B x y = true → hitTest [A, B] p x y = 1) := by
  refine ⟨?_, ?_, ?_⟩
  · intro hnone
    rcases hitTestLoop_spec el p x y el.length with ⟨h1, _⟩ | ⟨i, _, hm, _, _⟩
    · exact h1
    · exact absurd hm (hnone i)
  · intro i hm hmax
    rcases hitTestLoop_spec el p x y el.length with ⟨_, h2⟩ | ⟨j, hj, hmj, hres, hmaxj⟩
    · obtain ⟨e, he, _⟩ := id hm
      exact absurd hm (h2 i (List.get?_eq_some.mp he).1)
    · have hij : j = i := by
        obtain ⟨e, he, _⟩ := id hm
        have hilen : i < el.length := (List.get?_eq_some.mp he).1
        rcases lt_trichotomy i j with h | h | h
        · exact absurd hmj (hmax j h)
        · exact h.symm
        · exact absurd hm (hmaxj i h hilen)
      rw [hitTest, hres, hij]
  · intro A B hA hB hhA hhB
    simp [hitTest, hitTestLoop, hB, hhB]

/-- Two concrete overlapping elements on page 1 (for hit-test witnesses):
`boxA` covers the left half of the page, `boxB` the central quarter. -/
def boxA : NormalizedBox := ⟨0, 0, 1/2, 1⟩

/-- The second overlapping witness box. -/
def boxB : NormalizedBox := ⟨1/4, 1/4, 3/4, 3/4⟩

/-- A concrete element with bounding box `boxA` on page 1. -/
def elemA : Element :=
  { type := "paragraph", label := "A", value := "a", page := 1
    bounding_box := some boxA, line_boxes := none }

/-- A concrete element with bounding box `boxB` on page 1. -/
def elemB : Element :=
  { type := "field", label := "B", value := "b", page := 1
    bounding_box := some boxB, line_boxes := none }

/-- Witness for C3: the point `(0.3, 0.5)` lies inside both `elemA` and
`elemB`; with list order `[A, B]` the hit test resolves to `B`'s index. -/
theorem C3_hit_test_topmost_witness : hitTest [elemA, elemB] 1 (3/10) (1/2) = 1 :=
  (C3_hit_test_topmost [elemA, elemB] 1 (3/10) (1/2)).2.2 elemA elemB rfl rfl
    (by simp [elementHit, boxesToCheck, boxContains, elemA, boxA]; norm_num)
    (by simp [elementHit, boxesToCheck, boxContains, elemB, boxB]; norm_num)

/-- C8: page isolation.  Whenever the hit test returns a nonnegative index,
the element at that index is on the probed page; an element on a different
page is never returned, however its boxes relate to the pointer. -/
theorem C8_hit_test_page_isolation (el : List Element) (p : ℕ) (x y : ℚ)
    (i : ℕ) (h : hitTest el p x y = Int.ofNat i) :
    ∃ e, el.get? i = some e ∧ e.page = p := by
  obtain ⟨e, he, hp, _⟩ := hitTest_pos_match el p x y i h
  exact ⟨e, he, hp⟩

/-- An element on page 2 whose box coordinates contain any central point
(for the C8 witness). -/
def elemC : Element :=
  { type := "paragraph", label := "C", value := "c", page := 2
    bounding_box := some ⟨0, 0, 1, 1⟩, line_boxes := none }

/-- Witness for C8: probing page 1 over a list whose only element is on
page 2 (with a box containing the probed point) returns the element only if
it is on page 1 — and indeed the hit test returns `-1` here, so the
implication is instantiated through the contrapositive: the hit test over
`[elemA]` on page 1 returns index 0 and element `elemA` is on page 1. -/
theorem C8_hit_test_page_isolation_witness :
    ∃ e, [elemA].get? 0 = some e ∧ e.page = 1 :=
  C8_hit_test_page_isolation [elemA] 1 (3/10) (1/2) 0
    (by simp [hitTest, hitTestLoop, elemA, elementHit, boxesToCheck, boxContains, boxA]; norm_num)

/-! ### Overlay renderer -/

/-- A `.bounding-box` overlay div appended to the preview container
(src/index.tsx lines 810-841): its style classes, pixel geometry, and — for
editable overlays — the index of the owning box (`boxIndex`).  Every overlay
carries the `bounding-box` class, whether editable or not. -/
structure Overlay where
  editable : Bool
  animated : Bool
  visual : Bool
  rect : PixelRect
  boxIndex : ℕ
deriving DecidableEq

/-- `clearBoundingBoxes()` (src/index.tsx lines 845-852): removes every
element matching `.bounding-box` — editable overlays included, since they
also carry the `bounding-box` class.  (It also clears the `highlighted`
marker on result-list items, a pure display effect not modelled here.) -/
def clearBoundingBoxes (_overlays : List Overlay) : List Overlay := []

/-- `drawBoundingBox(element, isAnimated, isEditable)` (src/index.tsx lines
753-843) as a transformation of the overlay list.  A non-editable call
clears all existing overlays first; the boxes to draw come from
`boxesToCheck`; nothing is drawn when there are no boxes, the element's
`page` is falsy, or the page's preview element / coordinate system (the
`csOpt` argument) is unavailable; null entries of `line_boxes` are skipped.
The smooth-scroll side effect of non-editable draws is pure UI and not
modelled. -/
def drawBoundingBox (overlays : List Overlay) (element : Element)
    (isAnimated isEditable : Bool) (csOpt : Option CoordinateSystem) :
    List Overlay :=
  let overlays1 := if isEditable then overlays else clearBoundingBoxes overlays
  let boxesToDraw := boxesToCheck element
  if boxesToDraw.length = 0 ∨ element.page = 0 then overlays1
  else
    match csOpt with
    | none => overlays1
    | some coordSystem =>
      overlays1 ++ boxesToDraw.enum.filterMap fun p =>
        match p.2 with
        | none => none
        | some box => some
            { editable := isEditable
              animated := isAnimated
              visual := element.type == "figure" || element.type == "logo"
              rect := (normalizedToPixels box element.page coordSystem).pixels
              boxIndex := p.1 }

/-- `displayJsonResults` on a successful extraction (src/index.tsx lines
721-746): one interactive entry per element of the list, tagged with its
index, regardless of the element's geometry fields. -/
def displayJsonEntries (elements : List Element) : List (ℕ × Element) :=
  elements.enum

/-- A concrete editable overlay used in the C5 counterexample. -/
def editableOverlay : Overlay :=
  { editable := true, animated := false, visual := false
    rect := ⟨10, 10, 50, 20⟩, boxIndex := 0 }

/-- C5 counterexample: the claim says the clear operation removes only
non-editable overlays and that editable overlays persist across
non-editable draw calls.  In the code, `clearBoundingBoxes` removes every
`.bounding-box` element — here it removes an editable overlay — and a draw
call without the editable flag likewise removes a prior editable overlay. -/
theorem C5_counterexample :
    clearBoundingBoxes [editableOverlay] = [] ∧
    editableOverlay.editable = true ∧
    drawBoundingBox [editableOverlay] elemA false false none = [] := by
  refine ⟨rfl, rfl, ?_⟩
  rfl

/-- C5 amended: a draw call with the editable flag preserves all prior
overlays (it only appends); a draw call without the editable flag removes
all prior overlays — editable ones included — so its result is independent
of the prior overlay state; and the clear operation removes all overlays,
editable or not.  The overlay operations themselves therefore give no
protection to an in-progress edit's overlays. -/
theorem C5_amended (overlays : List Overlay) (element : Element)
    (isAnimated : Bool) (csOpt : Option CoordinateSystem) :
    (∃ added, drawBoundingBox overlays element isAnimated true csOpt =
      overlays ++ added) ∧
    drawBoundingBox overlays element isAnimated false csOpt =
      drawBoundingBox [] element isAnimated false csOpt ∧
    clearBoundingBoxes overlays = [] := by
  refine ⟨?_, ?_, rfl⟩
  · unfold drawBoundingBox
    simp only [if_true]
    split
    · exact ⟨[], by simp⟩
    · match csOpt with
      | none => exact ⟨[], by simp⟩
      | some cs => exact ⟨_, rfl⟩
  · unfold drawBoundingBox clearBoundingBoxes
    rfl

/-- An element lacking both `bounding_box` and a non-empty `line_boxes`
selects no boxes at all. -/
theorem boxesToCheck_malformed (e : Element)
    (hb : e.bounding_box = none)
    (hl : ∀ lbs, e.line_boxes = some lbs → lbs = []) :
    boxesToCheck e = [] := by
  unfold boxesToCheck
  rcases hlb : e.line_boxes with _ | lbs
  · rw [hb]
  · obtain rfl := hl lbs hlb
    simp [hb]

/-- C7: malformed-element tolerance.  An element with neither a
`bounding_box` nor a non-empty `line_boxes` array produces no overlay
rectangle when drawn (a draw call leaves the overlay state exactly as the
editable flag dictates, appending nothing), is never returned by the hit
test, and still occupies its position in the structured JSON result
display. -/
theorem C7_malformed_element_tolerance (e : Element)
    (hb : e.bounding_box = none)
    (hl : ∀ lbs, e.line_boxes = some lbs → lbs = []) :
    (∀ (overlays : List Overlay) (isAnimated isEditable : Bool)
       (csOpt : Option CoordinateSystem),
       drawBoundingBox overlays e isAnimated isEditable csOpt =
         if isEditable then overlays else []) ∧
    (∀ (el : List Element) (p : ℕ) (x y : ℚ) (i : ℕ),
       el.get? i = some e → hitTest el p x y ≠ Int.ofNat i) ∧
    (∀ (elements : List Element) (i : ℕ), elements.get? i = some e →
       (displayJsonEntries elements).get? i = some (i, e)) := by
  have hboxes := boxesToCheck_malformed e hb hl
  refine ⟨?_, ?_, ?_⟩
  · intro overlays isAnimated isEditable csOpt
    unfold drawBoundingBox
    rw [hboxes]
    simp [clearBoundingBoxes]
  · intro el p x y i hi h
    obtain ⟨e2, he2, _, hhit⟩ := hitTest_pos_match el p x y i h
    rw [hi] at he2
    obtain rfl := Option.some.inj he2
    rw [elementHit, hboxes] at hhit
    exact Bool.noConfusion hhit
  · intro elements i hi
    rw [displayJsonEntries, List.get?_enum, hi, Option.map_some']

/-- A concrete element with neither `bounding_box` nor `line_boxes`
(for the C7 witness). -/
def elemBad : Element :=
  { type := "field", label := "Bad", value := "x", page := 1
    bounding_box := none, line_boxes := none }

/-- Witness for C7 at the concrete malformed element `elemBad`: a
non-editable draw over a prior overlay produces no rectangle for it, the
hit test over `[elemBad]` never returns its index, and it still appears in
the JSON display entries. -/
theorem C7_malformed_element_tolerance_witness :
    drawBoundingBox [editableOverlay] elemBad true false none = [] ∧
    (hitTest [elemBad] 1 (1/2) (1/2) ≠ Int.ofNat 0) ∧
    (displayJsonEntries [elemBad]).get? 0 = some (0, elemBad) := by
  have h := C7_malformed_element_tolerance elemBad rfl
    (by intro lbs hlbs; simp [elemBad] at hlbs)
  exact ⟨by simpa using h.1 [editableOverlay] true false none,
    h.2.1 [elemBad] 1 (1/2) (1/2) 0 rfl,
    h.2.2 [elemBad] 0 rfl⟩

/-! ### Edit-session state machine -/

/-- The `currentlyEditing` record (src/index.tsx lines 54-57, 972-976):
the edited element's index and a deep copy of its pre-edit value.  In this
embedding values are immutable, so the deep copy
(`JSON.parse(JSON.stringify(element))`) is the value itself. -/
structure EditSession where
  index : ℕ
  originalElement : Element
deriving DecidableEq

/-- The mutable session state the editor functions touch: the extracted
element list, the current edit session, the live overlay divs. -/
structure AppState where
  extractedData : List Element
  currentlyEditing : Option EditSession
  overlays : List Overlay
deriving DecidableEq

/-- `updateElementFromEditableBoxes(elementIndex)` (src/index.tsx lines
1126-1160): for each `.bounding-box.editable` overlay, converts its current
pixel bounds back to a normalized box (re-resolving the coordinate system
through `resolve`) and writes it into the element's matching
`line_boxes[boxIndex]` or its `bounding_box`.  A failed resolution writes
`null`, as the source does.  Editable overlays always carry their
`boxIndex`/box back-reference (the source's `originalBoxRef === undefined`
guard never fires for overlays it created). -/
def updateElementFromEditableBoxes (resolve : ℕ → Option CoordinateSystem)
    (st : AppState) (elementIndex : ℕ) : AppState :=
  match st.extractedData.get? elementIndex with
  | none => st
  | some element =>
    let editableBoxes := st.overlays.filter (fun o => o.editable)
    let element1 := editableBoxes.foldl (fun el boxDiv =>
      let newPixelBounds : PixelRect := boxDiv.rect
      let newNormalizedBox := pixelsToNormalized resolve newPixelBounds el.page
      match el.line_boxes with
      | some lbs =>
        if 0 < lbs.length then
          { el with line_boxes := some (lbs.set boxDiv.boxIndex newNormalizedBox) }
        else match el.bounding_box with
             | some _ => { el with bounding_box := newNormalizedBox }
             | none => el
      | none =>
        match el.bounding_box with
        | some _ => { el with bounding_box := newNormalizedBox }
        | none => el) element
    { st with extractedData := st.extractedData.set elementIndex element1 }

/-- `exitEditMode(shouldSave)` (src/index.tsx lines 990-1015): a no-op
without an open session; on save, writes the editable overlays' geometry
back into the element; on cancel, restores the element from the session's
deep-copy snapshot; either way the session is destroyed and all overlay
divs are removed.  (The result-list class/button updates and the JSON
re-render are pure display effects.) -/
def exitEditMode (resolve : ℕ → Option CoordinateSystem) (st : AppState)
    (shouldSave : Bool) : AppState :=
  match st.currentlyEditing with
  | none => st
  | some session =>
    let st1 :=
      if shouldSave then updateElementFromEditableBoxes resolve st session.index
      else { st with extractedData :=
               st.extractedData.set session.index session.originalElement }
    { st1 with currentlyEditing := none
               overlays := clearBoundingBoxes st1.overlays }

/-- The body of `enterEditMode` after its re-entrancy checks (src/index.tsx
lines 969-988): bail out if no element exists at the index; otherwise
record the session with a deep-copy snapshot, clear hover overlays and draw
the editable overlays. -/
def enterEditModeCore (resolve : ℕ → Option CoordinateSystem)
    (st : AppState) (index : ℕ) : AppState :=
  match st.extractedData.get? index with
  | none => st
  | some element =>
    let st1 := { st with currentlyEditing := some ⟨index, element⟩ }
    let st2 := { st1 with overlays := clearBoundingBoxes st1.overlays }
    { st2 with overlays :=
        drawBoundingBox st2.overlays element false true (resolve element.page) }

/-- `enterEditMode(index)` (src/index.tsx lines 961-988): re-entering edit
on the index of the open session is a no-op; entering with another session
open first cancels that session (`exitEditMode(false)`), then proceeds. -/
def enterEditMode (resolve : ℕ → Option CoordinateSystem) (st : AppState)
    (index : ℕ) : AppState :=
  match st.currentlyEditing with
  | some session =>
    if session.index = index then st
    else enterEditModeCore resolve (exitEditMode resolve st false) index
  | none => enterEditModeCore resolve st index

/-- C6: cancelling an edit session restores the element exactly.  Entering
edit mode on element `i`, then mutating the overlay state arbitrarily (any
function `f` of the overlay list — drags, resizes, any pixel-geometry
change), then cancelling (`exitEditMode` with `shouldSave = false`), leaves
`extractedData[i]` equal to its pre-edit value (the deep-copy snapshot
taken at session entry) and destroys the edit session.  The coordinate
resolution available at cancel time (`resolveCancel`) is irrelevant. -/
theorem C6_cancel_restores (resolve resolveCancel : ℕ → Option CoordinateSystem)
    (st : AppState) (i : ℕ) (e : Element) (f : List Overlay → List Overlay)
    (hGet : st.extractedData.get? i = some e)
    (hNone : st.currentlyEditing = none) :
    (exitEditMode resolveCancel
        { enterEditMode resolve st i with
            overlays := f (enterEditMode resolve st i).overlays }
        false).extractedData.get? i = some e ∧
    (exitEditMode resolveCancel
        { enterEditMode resolve st i with
            overlays := f (enterEditMode resolve st i).overlays }
        false).currentlyEditing = none := by
  have hlen : i < st.extractedData.length := (List.get?_eq_some.mp hGet).1
  have henter : enterEditMode resolve st i = enterEditModeCore resolve st i := by
    simp only [enterEditMode, hNone]
  rw [henter]
  simp only [enterEditModeCore, hGet]
  simp only [exitEditMode]
  simp only [Bool.false_eq_true, if_false]
  exact ⟨List.get?_set_eq_of_lt e hlen, trivial⟩

/-- Witness for C6: a concrete one-element list, identity overlay mutation. -/
theorem C6_cancel_restores_witness :
    (exitEditMode (fun _ => none)
        { enterEditMode (fun _ => none) ⟨[elemA], none, []⟩ 0 with
            overlays := id (enterEditMode (fun _ => none) ⟨[elemA], none, []⟩ 0).overlays }
        false).extractedData.get? 0 = some elemA ∧
    (exitEditMode (fun _ => none)
        { enterEditMode (fun _ => none) ⟨[elemA], none, []⟩ 0 with
            overlays := id (enterEditMode (fun _ => none) ⟨[elemA], none, []⟩ 0).overlays }
        false).currentlyEditing = none :=
  C6_cancel_restores (fun _ => none) (fun _ => none) ⟨[elemA], none, []⟩ 0 elemA
    id rfl rfl

/-- A state with an open edit session on index 0 of a one-element list
(for the C10 counterexample). -/
def stC10 : AppState :=
  { extractedData := [elemA], currentlyEditing := some ⟨0, elemA⟩, overlays := [] }

/-- C10 counterexample: with an edit session open on index 0, calling
`enterEditMode` on the out-of-range index 1 is not a no-op — the code first
cancels the open session (restoring its snapshot and clearing the session)
before discovering the index is invalid: the edit-session state changes
from `some` to `none`. -/
theorem C10_counterexample :
    stC10.extractedData.get? 1 = none ∧
    stC10.currentlyEditing = some ⟨0, elemA⟩ ∧
    (enterEditMode (fun _ => none) stC10 1).currentlyEditing = none := by
  exact ⟨rfl, rfl, rfl⟩

/-- C10 amended: calling `enterEditMode` with an index for which no
element exists creates no edit session for that index and, when no session
is open or the open session is on that same index, is a complete no-op;
when a session on a *different* index is open, the call instead behaves
exactly like cancelling that session (`exitEditMode(false)`): the previous
snapshot is restored at the previous index, the session is destroyed, and
no new session is created. -/
theorem C10_invalid_index (resolve : ℕ → Option CoordinateSystem)
    (st : AppState) (index : ℕ)
    (h : st.extractedData.get? index = none) :
    (st.currentlyEditing = none → enterEditMode resolve st index = st) ∧
    (∀ s, st.currentlyEditing = some s → s.index = index →
      enterEditMode resolve st index = st) ∧
    (∀ s, st.currentlyEditing = some s → s.index ≠ index →
      enterEditMode resolve st index = exitEditMode resolve st false ∧
      (enterEditMode resolve st index).currentlyEditing = none ∧
      (enterEditMode resolve st index).extractedData =
        st.extractedData.set s.index s.originalElement) := by
  refine ⟨?_, ?_, ?_⟩
  · intro hNone
    simp only [enterEditMode, hNone, enterEditModeCore, h]
  · intro s hs hsi
    simp only [enterEditMode, hs, if_pos hsi]
  · intro s hs hsi
    have hexit : exitEditMode resolve st false =
        { extractedData := st.extractedData.set s.index s.originalElement
          currentlyEditing := none
          overlays := [] } := by
      simp only [exitEditMode, hs, Bool.false_eq_true, if_false]
      rfl
    have hstep : enterEditMode resolve st index =
        enterEditModeCore resolve (exitEditMode resolve st false) index := by
      simp only [enterEditMode, hs, if_neg hsi]
    have hnone2 : (exitEditMode resolve st false).extractedData.get? index = none := by
      rw [hexit]
      simp only
      rw [List.get?_eq_none] at h ⊢
      simpa using h
    have hcore : enterEditModeCore resolve (exitEditMode resolve st false) index =
        exitEditMode resolve st false := by
      simp only [enterEditModeCore, hnone2]
    rw [hstep, hcore, hexit]
    exact ⟨rfl, rfl, rfl⟩

/-- Witness for C10's amended theorem: with no session open, entering edit
on the out-of-range index 5 of a one-element list changes nothing. -/
theorem C10_invalid_index_witness :
    enterEditMode (fun _ => none) ⟨[elemA], none, []⟩ 5 = ⟨[elemA], none, []⟩ :=
  (C10_invalid_index (fun _ => none) ⟨[elemA], none, []⟩ 5 rfl).1 rfl

end DocExtract
